import Mathlib

/-!
Shallow embedding of the shader dispatch core `src/shaders/mod.rs` of
tiny-skia: the `Shader` variant type and its three operations
(`is_opaque`, `push_stages`, `transform`), together with models of the
external collaborators (Color, Transform, the gradient and pattern
payloads, and the pipeline-building state) whose source files are not
part of the provided sources and are therefore modelled from the spec.
-/

/-- Modelled from the spec: the external `Color` primitive (its source
file is absent from src/). Channels are rationals in place of the
machine floats; the opacity predicate is true iff the alpha channel is
at its maximum (here 1). -/
structure Color where
  r : ℚ
  g : ℚ
  b : ℚ
  a : ℚ
deriving DecidableEq

/-- Modelled from the spec: Color's own opacity check — true iff its
alpha channel is at maximum. -/
def Color.isOpaque (c : Color) : Bool :=
  decide (c.a = 1)

/-- Modelled from the spec: the external `Transform` primitive (its
source file is absent from src/): a 2x3 affine matrix over rationals in
place of machine floats. -/
structure Transform where
  sx : ℚ
  kx : ℚ
  ky : ℚ
  sy : ℚ
  tx : ℚ
  ty : ℚ
deriving DecidableEq

/-- The point an affine transform maps `p` to. -/
def Transform.mapPoint (t : Transform) (p : ℚ × ℚ) : ℚ × ℚ :=
  (t.sx * p.1 + t.kx * p.2 + t.tx, t.ky * p.1 + t.sy * p.2 + t.ty)

/-- Determinant of the linear part of the transform. -/
def Transform.det (t : Transform) : ℚ :=
  t.sx * t.sy - t.kx * t.ky

/-- `Transform.concat a b` is the transform applying `b` first, then
`a` (the matrix product `a * b`). -/
def Transform.concat (a b : Transform) : Transform :=
  { sx := a.sx * b.sx + a.kx * b.ky
    kx := a.sx * b.kx + a.kx * b.sy
    ky := a.ky * b.sx + a.sy * b.ky
    sy := a.ky * b.kx + a.sy * b.sy
    tx := a.sx * b.tx + a.kx * b.ty + a.tx
    ty := a.ky * b.tx + a.sy * b.ty + a.ty }

/-- Modelled from the spec: `Transform::post_concat` — a composition
operation that yields the transform applying `self` first and then
`other`, or signals failure (a degenerate / non-invertible result)
without mutating either input. -/
def Transform.post_concat (self other : Transform) : Option Transform :=
  let r := Transform.concat other self
  if Transform.det r = 0 then none else some r

/-- A shader spreading mode (from `src/shaders/mod.rs`). -/
inductive SpreadMode where
  | Pad
  | Reflect
  | Repeat
deriving DecidableEq

/-- Modelled from the spec: the pattern's filter-quality setting (its
source file is absent from src/). -/
inductive FilterQuality where
  | Nearest
  | Bilinear
  | Bicubic
deriving DecidableEq

/-- Modelled from the spec: one gradient stop — an (offset, color)
pair (its source file is absent from src/). -/
structure GradientStop where
  offset : ℚ
  color : Color
deriving DecidableEq

/-- Modelled from the spec: the shared gradient base owned by both
gradient variants — a base transform, a spread mode and a stop list
(its source file is absent from src/). -/
structure Gradient where
  transform : Transform
  spread : SpreadMode
  stops : List GradientStop
deriving DecidableEq

/-- Modelled from the spec: the linear-gradient payload (its source
file is absent from src/). -/
structure LinearGradient where
  base : Gradient
deriving DecidableEq

/-- Modelled from the spec: the radial-gradient payload (its source
file is absent from src/). -/
structure RadialGradient where
  base : Gradient
deriving DecidableEq

/-- Modelled from the spec: the image source sampled by a pattern (its
source file is absent from src/). -/
structure Pixmap where
  width : Nat
  height : Nat
  pixels : List Color
deriving DecidableEq

/-- Modelled from the spec: the pattern payload — a transform, a
filter-quality setting and an image source (its source file is absent
from src/). -/
structure Pattern where
  image : Pixmap
  quality : FilterQuality
  transform : Transform
deriving DecidableEq

/-- Modelled from the spec: `LinearGradient::is_opaque` (its source
file is absent from src/) — true iff every stop in its list is
individually opaque. -/
def LinearGradient.isOpaque (g : LinearGradient) : Bool :=
  g.base.stops.all (fun st => Color.isOpaque st.color)

/-- The `Shader` variant type from `src/shaders/mod.rs`: a closed sum
with exactly one active payload. -/
inductive Shader where
  | SolidColor (c : Color)
  | LinearGradient (g : LinearGradient)
  | RadialGradient (g : RadialGradient)
  | Pattern (p : Pattern)
deriving DecidableEq

/-- The observable state reached through a `StageRec`: the context
storage's allocations and the builder's appended stage sequence,
modelled as opaque identifiers since the spec treats stages as opaque
executable steps. -/
structure StageRecState where
  ctx_storage : List Nat
  pipeline : List Nat
deriving DecidableEq

/-- The external stage compilers the dispatch layer delegates to (their
source files are absent from src/); each takes the `StageRec` state and
returns its result together with the updated state. The pattern
compiler returns `Option Unit`, matching `Pattern::push_stages`
returning an option. -/
structure Externals where
  linearPush : LinearGradient → StageRecState → Bool × StageRecState
  radialPush : RadialGradient → StageRecState → Bool × StageRecState
  patternPush : Pattern → StageRecState → Option Unit × StageRecState

/-- `Shader::is_opaque` from `src/shaders/mod.rs`. -/
def Shader.isOpaque : Shader → Bool
  | Shader.SolidColor c => Color.isOpaque c
  | Shader.LinearGradient g => LinearGradient.isOpaque g
  | Shader.RadialGradient _ => false
  | Shader.Pattern _ => false

/-- `Shader::push_stages` from `src/shaders/mod.rs`, with the external
compilers passed explicitly and the `StageRec` state threaded. -/
def Shader.push_stages (ext : Externals) : Shader → StageRecState → Bool × StageRecState
  | Shader.SolidColor _, st => (true, st)
  | Shader.LinearGradient g, st => ext.linearPush g st
  | Shader.RadialGradient g, st => ext.radialPush g st
  | Shader.Pattern p, st =>
      let r := ext.patternPush p st
      (r.1.isSome, r.2)

/-- `Shader::transform` from `src/shaders/mod.rs`: the mutation of
`&mut self` is modelled as returning the updated shader. -/
def Shader.transform : Shader → Transform → Shader
  | Shader.SolidColor c, _ => Shader.SolidColor c
  | Shader.LinearGradient g, ts =>
      match Transform.post_concat g.base.transform ts with
      | some t => Shader.LinearGradient { g with base := { g.base with transform := t } }
      | none => Shader.LinearGradient g
  | Shader.RadialGradient g, ts =>
      match Transform.post_concat g.base.transform ts with
      | some t => Shader.RadialGradient { g with base := { g.base with transform := t } }
      | none => Shader.RadialGradient g
  | Shader.Pattern p, ts =>
      match Transform.post_concat p.transform ts with
      | some t => Shader.Pattern { p with transform := t }
      | none => Shader.Pattern p

/-- The transform stored by a shader: none for `SolidColor`, the local
transform of the active payload otherwise. -/
def Shader.getTransform : Shader → Option Transform
  | Shader.SolidColor _ => none
  | Shader.LinearGradient g => some g.base.transform
  | Shader.RadialGradient g => some g.base.transform
  | Shader.Pattern p => some p.transform

/-- Discriminant of the active variant. -/
def Shader.tag : Shader → Nat
  | Shader.SolidColor _ => 0
  | Shader.LinearGradient _ => 1
  | Shader.RadialGradient _ => 2
  | Shader.Pattern _ => 3

/-- The stop list of the active payload, when it has one. -/
def Shader.stopsOf : Shader → Option (List GradientStop)
  | Shader.LinearGradient g => some g.base.stops
  | Shader.RadialGradient g => some g.base.stops
  | _ => none

/-- The spread mode of the active payload, when it has one. -/
def Shader.spreadOf : Shader → Option SpreadMode
  | Shader.LinearGradient g => some g.base.spread
  | Shader.RadialGradient g => some g.base.spread
  | _ => none

/-- The filter quality of the active payload, when it has one. -/
def Shader.qualityOf : Shader → Option FilterQuality
  | Shader.Pattern p => some p.quality
  | _ => none

/-- The image source of the active payload, when it has one. -/
def Shader.imageOf : Shader → Option Pixmap
  | Shader.Pattern p => some p.image
  | _ => none

/-- The color of the active payload, when it has one. -/
def Shader.colorOf : Shader → Option Color
  | Shader.SolidColor c => some c
  | _ => none

/-- Sample values used by the closed witness theorems below. -/
def tIdent : Transform := { sx := 1, kx := 0, ky := 0, sy := 1, tx := 0, ty := 0 }

def tZero : Transform := { sx := 0, kx := 0, ky := 0, sy := 0, tx := 0, ty := 0 }

def tTrans : Transform := { sx := 1, kx := 0, ky := 0, sy := 1, tx := 1, ty := 2 }

def cBlack : Color := { r := 0, g := 0, b := 0, a := 1 }

def stop0 : GradientStop := { offset := 0, color := cBlack }

def lgW : LinearGradient :=
  { base := { transform := tIdent, spread := SpreadMode.Pad, stops := [stop0] } }

def lgEmpty : LinearGradient :=
  { base := { transform := tIdent, spread := SpreadMode.Pad, stops := [] } }

/-- Applying a composed transform to a point is applying the two
transforms in sequence (the second component of `concat` first). -/
theorem Transform.concat_mapPoint (a b : Transform) (p : ℚ × ℚ) :
    Transform.mapPoint (Transform.concat a b) p
      = Transform.mapPoint a (Transform.mapPoint b p) := by
  simp only [Transform.mapPoint, Transform.concat, Prod.mk.injEq]
  constructor <;> ring

/-- C1: for every geometric shader (one whose stored transform exists)
and every delta `ts`, if composing the stored transform with `ts`
fails, `transform` returns the shader bit-for-bit unchanged — the
update is dropped entirely, never partially applied, and no error is
reported. -/
theorem transform_failure_noop (s : Shader) (ts t : Transform)
    (hget : Shader.getTransform s = some t)
    (hfail : Transform.post_concat t ts = none) :
    Shader.transform s ts = s := by
  cases s with
  | SolidColor c => rfl
  | LinearGradient g =>
      simp only [Shader.getTransform, Option.some.injEq] at hget
      subst hget
      simp [Shader.transform, hfail]
  | RadialGradient g =>
      simp only [Shader.getTransform, Option.some.injEq] at hget
      subst hget
      simp [Shader.transform, hfail]
  | Pattern p =>
      simp only [Shader.getTransform, Option.some.injEq] at hget
      subst hget
      simp [Shader.transform, hfail]

/-- C1 witness: a linear gradient with the identity transform, updated
by the all-zero delta (whose composition is singular, hence fails), is
returned unchanged. -/
theorem transform_failure_noop_witness :
    Shader.transform (Shader.LinearGradient lgW) tZero = Shader.LinearGradient lgW :=
  transform_failure_noop (Shader.LinearGradient lgW) tZero tIdent rfl
    (by norm_num [Transform.post_concat, Transform.concat, Transform.det, tIdent, tZero])

/-- C2: a radial-gradient shader is never reported opaque, whatever its
stops, and a pattern shader is never reported opaque, whatever its
image. -/
theorem radial_pattern_never_opaque (g : RadialGradient) (p : Pattern) :
    Shader.isOpaque (Shader.RadialGradient g) = false ∧
    Shader.isOpaque (Shader.Pattern p) = false :=
  ⟨rfl, rfl⟩

/-- C3: `push_stages` on a solid-color shader returns true and leaves
the builder and context storage behind the `StageRec` unchanged, for
every color and every external compiler behaviour. -/
theorem solid_push_stages (ext : Externals) (c : Color) (st : StageRecState) :
    Shader.push_stages ext (Shader.SolidColor c) st = (true, st) :=
  rfl

/-- C4: when composition succeeds, the new stored transform is exactly
the post-concatenation of the delta onto the existing transform: it
maps every point `p` by applying the existing transform first and the
delta `ts` second. -/
theorem transform_success_post_concat (s : Shader) (ts t t' : Transform) (p : ℚ × ℚ)
    (hget : Shader.getTransform s = some t)
    (hok : Transform.post_concat t ts = some t') :
    Shader.getTransform (Shader.transform s ts) = some t' ∧
    Transform.mapPoint t' p = Transform.mapPoint ts (Transform.mapPoint t p) := by
  have ht' : t' = Transform.concat ts t := by
    unfold Transform.post_concat at hok
    by_cases h : Transform.det (Transform.concat ts t) = 0
    · simp [h] at hok
    · simp only [h, if_false] at hok
      exact (Option.some.injEq _ _ ▸ hok).symm
  refine ⟨?_, ?_⟩
  · cases s with
    | SolidColor c => simp [Shader.getTransform] at hget
    | LinearGradient g =>
        simp only [Shader.getTransform, Option.some.injEq] at hget
        subst hget
        simp [Shader.transform, hok, Shader.getTransform]
    | RadialGradient g =>
        simp only [Shader.getTransform, Option.some.injEq] at hget
        subst hget
        simp [Shader.transform, hok, Shader.getTransform]
    | Pattern q =>
        simp only [Shader.getTransform, Option.some.injEq] at hget
        subst hget
        simp [Shader.transform, hok, Shader.getTransform]
  · subst ht'
    exact Transform.concat_mapPoint ts t p

/-- C4 witness: updating a linear gradient holding the identity
transform by a pure translation stores that translation, and the stored
transform moves the point (3, 4) exactly as the delta after the
identity does. -/
theorem transform_success_post_concat_witness :
    Shader.getTransform (Shader.transform (Shader.LinearGradient lgW) tTrans) = some tTrans ∧
    Transform.mapPoint tTrans (3, 4) = Transform.mapPoint tTrans (Transform.mapPoint tIdent (3, 4)) :=
  transform_success_post_concat (Shader.LinearGradient lgW) tTrans tIdent tTrans (3, 4)
    rfl (by norm_num [Transform.post_concat, Transform.concat, Transform.det, tIdent, tTrans])

/-- C5 counterexample: a linear gradient with an empty stop list is
reported opaque (every stop of the empty list is vacuously opaque), so
the claim that an empty stop list yields false fails. -/
theorem linear_empty_stops_not_false :
    lgEmpty.base.stops = [] ∧
    Shader.isOpaque (Shader.LinearGradient lgEmpty) ≠ false :=
  ⟨rfl, by simp [Shader.isOpaque, LinearGradient.isOpaque, lgEmpty]⟩

/-- C5 (amended): a linear-gradient shader is reported opaque exactly
when every stop in its stop list has its alpha channel at maximum; in
particular any stop with alpha below maximum yields false, and the
empty stop list yields true (vacuously), without panicking. -/
theorem linear_opaque_iff_all_stops (g : LinearGradient) :
    Shader.isOpaque (Shader.LinearGradient g)
      = decide (∀ st ∈ g.base.stops, st.color.a = 1) := by
  rw [Bool.eq_iff_iff]
  simp [Shader.isOpaque, LinearGradient.isOpaque, Color.isOpaque, List.all_eq_true]

/-- C6: a solid-color shader's opacity query delegates to the color's
own opacity check, which holds exactly when the alpha channel is at its
maximum. -/
theorem solid_opaque_iff_alpha (c : Color) :
    Shader.isOpaque (Shader.SolidColor c) = Color.isOpaque c ∧
    Shader.isOpaque (Shader.SolidColor c) = decide (c.a = 1) :=
  ⟨rfl, rfl⟩

/-- C7: `push_stages` on a pattern shader reports success exactly when
the pattern's own compiler produces a stage sequence (a some result),
and false exactly when it produces none, for every compiler behaviour
and every `StageRec` state. -/
theorem pattern_push_stages_isSome (ext : Externals) (p : Pattern) (st : StageRecState) :
    (Shader.push_stages ext (Shader.Pattern p) st).1 = (ext.patternPush p st).1.isSome :=
  rfl

/-- C8: `transform` on a solid-color shader is a no-op: the shader is
returned unchanged for every delta, and the operation cannot fail. -/
theorem solid_transform_noop (c : Color) (ts : Transform) :
    Shader.transform (Shader.SolidColor c) ts = Shader.SolidColor c :=
  rfl

/-- C9: the three public operations are total: for every shader value,
every external compiler behaviour, every `StageRec` state and every
delta transform, each operation yields a result (the embedding has no
failing, panicking or diverging path). -/
theorem shader_ops_total (s : Shader) (ext : Externals) (st : StageRecState) (ts : Transform) :
    (∃ b : Bool, Shader.isOpaque s = b) ∧
    (∃ r : Bool × StageRecState, Shader.push_stages ext s st = r) ∧
    (∃ s2 : Shader, Shader.transform s ts = s2) :=
  ⟨⟨Shader.isOpaque s, rfl⟩, ⟨Shader.push_stages ext s st, rfl⟩, ⟨Shader.transform s ts, rfl⟩⟩

/-- C10: `transform` never changes the active variant and touches at
most the stored transform: the stop list, spread mode, filter quality,
image and color of the active payload are all preserved, whether or not
the composition succeeds. -/
theorem transform_preserves_shape (s : Shader) (ts : Transform) :
    Shader.tag (Shader.transform s ts) = Shader.tag s ∧
    Shader.stopsOf (Shader.transform s ts) = Shader.stopsOf s ∧
    Shader.spreadOf (Shader.transform s ts) = Shader.spreadOf s ∧
    Shader.qualityOf (Shader.transform s ts) = Shader.qualityOf s ∧
    Shader.imageOf (Shader.transform s ts) = Shader.imageOf s ∧
    Shader.colorOf (Shader.transform s ts) = Shader.colorOf s := by
  cases s with
  | SolidColor c => exact ⟨rfl, rfl, rfl, rfl, rfl, rfl⟩
  | LinearGradient g =>
      cases h : Transform.post_concat g.base.transform ts <;>
        simp [Shader.transform, h, Shader.tag, Shader.stopsOf, Shader.spreadOf,
          Shader.qualityOf, Shader.imageOf, Shader.colorOf]
  | RadialGradient g =>
      cases h : Transform.post_concat g.base.transform ts <;>
        simp [Shader.transform, h, Shader.tag, Shader.stopsOf, Shader.spreadOf,
          Shader.qualityOf, Shader.imageOf, Shader.colorOf]
  | Pattern p =>
      cases h : Transform.post_concat p.transform ts <;>
        simp [Shader.transform, h, Shader.tag, Shader.stopsOf, Shader.spreadOf,
          Shader.qualityOf, Shader.imageOf, Shader.colorOf]
